import Mathlib

/-!
Verification of the patent_downloader package (src/patent_downloader/downloader.py)
against its natural-language specification.

The Python code is shallowly embedded: parsed HTML is a list of anchor
elements (for link resolution) or a list of tagged elements (for info
extraction); HTTP calls and file writes are oracles passed in an `Env`
record; Python exceptions become explicit `Except` values; Python
truthiness of optional strings (`if not pdf_link`) is `pyTruthyOpt`.
-/

/-- Python's `str.lower()` (ASCII case folding, which covers every string
the code builds or compares). -/
def pyLower (s : String) : String := String.mk (s.data.map Char.toLower)

/-- Whitespace as Python's `str.strip()` removes it. -/
def isPySpace (c : Char) : Bool :=
  c == ' ' || c == '\t' || c == '\n' || c == '\r' || c == '\x0b' || c == '\x0c'

/-- Python's `str.strip()`: whitespace removed from both ends. -/
def pyStrip (s : String) : String :=
  String.mk (((s.data.dropWhile isPySpace).reverse.dropWhile isPySpace).reverse)

/-- Python's `str.startswith(pre)`. -/
def pyStartsWith (s pre : String) : Bool := pre.data.isPrefixOf s.data

/-- Python's `str.endswith(suf)`. -/
def pyEndsWith (s suf : String) : Bool := suf.data.isSuffixOf s.data

/-- Substring containment on character lists: `pat` occurs contiguously in `l`.
Embeds Python's `in` operator on strings. -/
def listContainsSub (l pat : List Char) : Bool :=
  pat.isPrefixOf l ||
    match l with
    | [] => false
    | _ :: t => listContainsSub t pat

/-- Python's `pat in s` for strings. -/
def strContainsSub (s pat : String) : Bool :=
  listContainsSub s.toList pat.toList

/-- An `<a href=...>` element as BeautifulSoup's `find_all("a", href=True)`
yields it: its `href` attribute (which may be the empty string) and its
visible text (`get_text()`). -/
structure Anchor where
  href : String
  text : String
deriving DecidableEq

/-- Python truthiness of an `Optional[str]`: `None` and `""` are falsy. -/
def pyTruthyOpt (v : Option String) : Bool :=
  match v with
  | none => false
  | some s => !(s == "")

/-- Strategy 1 of `_find_pdf_link` (downloader.py:205-210): href or text
contains "download" (lower-cased) and href contains "pdf". -/
def strategy1Pred (l : Anchor) : Bool :=
  (strContainsSub (pyLower l.href) "download" || strContainsSub (pyLower l.text) "download")
    && strContainsSub (pyLower l.href) "pdf"

/-- Strategy 2 of `_find_pdf_link` (downloader.py:213-218): trimmed text
equals "download pdf" (lower-cased) or contains "download". -/
def strategy2Pred (l : Anchor) : Bool :=
  (pyLower (pyStrip l.text)) == "download pdf" || strContainsSub (pyLower (pyStrip l.text)) "download"

/-- Strategy 3 of `_find_pdf_link` (downloader.py:221-226): raw href contains
"/download" or "download=true". -/
def strategy3Pred (l : Anchor) : Bool :=
  strContainsSub l.href "/download" || strContainsSub l.href "download=true"

/-- `pdf_link` after the strategy-1 loop: the raw href of the first anchor
matching strategy 1 (downloader.py:202-210). -/
def afterStrategy1 (anchors : List Anchor) : Option String :=
  (anchors.find? strategy1Pred).map Anchor.href

/-- `pdf_link` after the strategy-2 block, which runs only when the current
value is falsy (downloader.py:213-218). -/
def afterStrategy2 (anchors : List Anchor) (pdfLink : Option String) : Option String :=
  if !pyTruthyOpt pdfLink then
    match anchors.find? strategy2Pred with
    | some l => some l.href
    | none => pdfLink
  else pdfLink

/-- `pdf_link` after the strategy-3 block, which runs only when the current
value is falsy (downloader.py:221-226). -/
def afterStrategy3 (anchors : List Anchor) (pdfLink : Option String) : Option String :=
  if !pyTruthyOpt pdfLink then
    match anchors.find? strategy3Pred with
    | some l => some l.href
    | none => pdfLink
  else pdfLink

/-- The guessed URL of strategy 4 (downloader.py:230). -/
def guessDownloadUrl (patent_number : String) : String :=
  "https://patents.google.com/patent/" ++ patent_number ++ "/en/download"

/-- `pdf_link` after strategy 4 (downloader.py:229-230): the guessed URL when
the current value is falsy. -/
def afterStrategy4 (patent_number : String) (pdfLink : Option String) : Option String :=
  if !pyTruthyOpt pdfLink then some (guessDownloadUrl patent_number)
  else pdfLink

/-- The second fallback assignment (downloader.py:232-233), guarded by the
same falsiness test. -/
def afterFallback2 (patent_number : String) (pdfLink : Option String) : Option String :=
  if !pyTruthyOpt pdfLink then
    some ("https://patents.google.com/xhr/query?url=patent=" ++ patent_number ++ "&download=true")
  else pdfLink

/-- The URL normalization (downloader.py:236-240), run only on a truthy
value: a leading "/" gets the site origin prefixed; a value not starting
with "http" gets the origin plus "/" prefixed. -/
def normalizeLink (pdfLink : Option String) : Option String :=
  if pyTruthyOpt pdfLink then
    match pdfLink with
    | some s =>
        if pyStartsWith s "/" then some ("https://patents.google.com" ++ s)
        else if !(pyStartsWith s "http") then some ("https://patents.google.com/" ++ s)
        else some s
    | none => none
  else pdfLink

/-- The cascade value just before the second fallback assignment. -/
def linkBeforeFallback2 (anchors : List Anchor) (patent_number : String) : Option String :=
  afterStrategy4 patent_number (afterStrategy3 anchors (afterStrategy2 anchors (afterStrategy1 anchors)))

/-- `_find_pdf_link` (downloader.py:197-242) over the anchors of the parsed
page. -/
def findPdfLink (anchors : List Anchor) (patent_number : String) : Option String :=
  normalizeLink (afterFallback2 patent_number (linkBeforeFallback2 anchors patent_number))

/-- The claim's reading of the cascade, stated literally: the strategies are
tried in order and the first matching anchor wins outright, its href being
the selected URL. -/
def claimFirstMatch (anchors : List Anchor) : Option String :=
  match anchors.find? strategy1Pred with
  | some l => some l.href
  | none =>
      match anchors.find? strategy2Pred with
      | some l => some l.href
      | none => (anchors.find? strategy3Pred).map Anchor.href

/-- The claim's normalization of a selected URL: a leading "/" gets the site
origin prefixed; a URL not starting with "http" (the code's notion of
carrying a scheme) gets the origin plus a separating "/" prefixed. -/
def claimNormalize (s : String) : String :=
  if pyStartsWith s "/" then "https://patents.google.com" ++ s
  else if !(pyStartsWith s "http") then "https://patents.google.com/" ++ s
  else s

/-- First usable candidate of the amended cascade: a strategy's selected
href counts only when it is non-empty; otherwise the cascade continues,
ending at the default (the guessed URL). -/
def firstUsable : List (Option String) → String → String
  | [], d => d
  | none :: rest, d => firstUsable rest d
  | some h :: rest, d => if h == "" then firstUsable rest d else h

/-- The amended claim's selection: the first strategy (in order 1, 2, 3)
whose first matching anchor has a non-empty href wins; if none does, the
guessed URL is used. -/
def amendedSelect (anchors : List Anchor) (patent_number : String) : String :=
  firstUsable
    [(anchors.find? strategy1Pred).map Anchor.href,
     (anchors.find? strategy2Pred).map Anchor.href,
     (anchors.find? strategy3Pred).map Anchor.href]
    (guessDownloadUrl patent_number)

/-- Modelled from the spec: `exceptions.py` is not in the repository
snapshot (downloader.py imports it). Per the spec's error taxonomy (§7),
the package defines InvalidIdentifier, NotFound, DownloadFailed and
NetworkError, all subclasses of the package base error and distinct from
the HTTP client's transport exceptions. -/
inductive PDError where
  | invalidPatentNumber (msg : String)
  | patentNotFound (msg : String)
  | downloadFailed (msg : String)
  | networkError (msg : String)
deriving DecidableEq

/-- An exception the HTTP client or the filesystem can raise: a
`requests.RequestException` (transport or HTTP-status failure) or any
other exception. The package's own errors are never raised by these
external collaborators. -/
inductive FetchErr where
  | requestErr (msg : String)
  | otherErr (msg : String)
deriving DecidableEq

/-- The message text `str(e)` of an external exception. -/
def fetchErrMsg : FetchErr → String
  | .requestErr m => m
  | .otherErr m => m

/-- An exception in flight inside one of the downloader's `try` blocks:
either an external exception or one of the package's own errors. -/
inductive TryExc where
  | fetch (e : FetchErr)
  | pde (e : PDError)
deriving DecidableEq

/-- The shared `except` chain of `download_patent` (downloader.py:93-100)
and `_retrieve_pdf_link` (downloader.py:188-195): a RequestException is
wrapped into NetworkError, a package error is re-raised unchanged, and any
other exception is wrapped into DownloadFailed. -/
def handleDownloadExc : TryExc → PDError
  | .fetch (.requestErr m) => .networkError ("Network error: " ++ m)
  | .pde e => e
  | .fetch (.otherErr m) => .downloadFailed ("Unexpected error: " ++ m)

/-- A Python value handed to `_validate_patent_number`, whose `isinstance`
check distinguishes strings from other values (`None`, numbers, ...). -/
inductive PyVal where
  | vstr (s : String)
  | vnone
  | vint (n : Int)
deriving DecidableEq

/-- Python truthiness of such a value. -/
def pyTruthyVal : PyVal → Bool
  | .vstr s => !(s == "")
  | .vnone => false
  | .vint n => !(n == 0)

/-- `isinstance(v, str)`. -/
def isStrInstance : PyVal → Bool
  | .vstr _ => true
  | _ => false

/-- `_validate_patent_number` (downloader.py:152-159): rejects falsy or
non-string values, then rejects a string whose whitespace-stripped length
is under 3. -/
def validatePatentNumber (v : PyVal) : Except PDError Unit :=
  if !pyTruthyVal v || !isStrInstance v then
    .error (.invalidPatentNumber "Patent number must be a non-empty string")
  else
    match v with
    | .vstr s =>
        if (pyStrip s).length < 3 then .error (.invalidPatentNumber "Patent number too short")
        else .ok ()
    | _ => .ok ()

/-- An HTTP GET as the session issues it: the URL and the Referer header,
when one is set. -/
structure HttpRequest where
  url : String
  referer : Option String
deriving DecidableEq

/-- The response of the PDF GET: the `content-type` header (defaulted to ""
when absent) and the raw body bytes. -/
structure PdfResponse where
  contentType : String
  content : List Nat
deriving DecidableEq

/-- The external world one `download_patent` call sees: the outcome of the
page GET (`session.get` plus `raise_for_status`, yielding the parsed
anchors of `response.content` on success), the outcome of a PDF GET, and
the outcome of a file write. Directory creation (`mkdir`) is modelled as
succeeding. -/
structure Env where
  page : Except FetchErr (List Anchor)
  pdf : HttpRequest → Except FetchErr PdfResponse
  write : String → List Nat → Except FetchErr Unit

/-- `_retrieve_pdf_link` (downloader.py:161-195): fetch the page, find the
PDF link, raise NotFound on a falsy link, and translate exceptions through
the `except` chain. -/
def retrievePdfLink (env : Env) (patent_number patent_url : String) : Except PDError String :=
  let body : Except TryExc String :=
    match env.page with
    | .error e => .error (.fetch e)
    | .ok anchors =>
        match findPdfLink anchors patent_number with
        | none =>
            .error (.pde (.patentNotFound
              ("Could not find PDF download link for patent " ++ patent_url)))
        | some s =>
            if s == "" then
              .error (.pde (.patentNotFound
                ("Could not find PDF download link for patent " ++ patent_url)))
            else .ok s
  match body with
  | .ok s => .ok s
  | .error e => .error (handleDownloadExc e)

/-- The 4-byte PDF magic marker `%PDF`. -/
def pdfMagic : List Nat := [37, 80, 68, 70]

/-- `_download_pdf_data` (downloader.py:244-266): one GET for the PDF with
the Referer header set to the page URL; any exception becomes
DownloadFailed; on success the raw body bytes are returned, with a warning
(second component) logged when the content-type does not contain "pdf" and
the body does not start with the magic marker. The middle component lists
the HTTP requests issued. -/
def downloadPdfData (env : Env) (pdf_link patent_number referer : String) :
    Except PDError (List Nat) × List HttpRequest × Bool :=
  let req : HttpRequest := ⟨pdf_link, some referer⟩
  match env.pdf req with
  | .error e =>
      (.error (.downloadFailed ("Failed to download PDF data: " ++ fetchErrMsg e)), [req], false)
  | .ok r =>
      (.ok r.content, [req],
        !(strContainsSub (pyLower r.contentType) "pdf") && !(pdfMagic.isPrefixOf r.content))

/-- `_download_pdf` (downloader.py:268-282): fetch the PDF data and write
`{output_dir}/{patent_number}.pdf`; every exception is caught and turned
into `false`. The second component lists the files written. -/
def downloadPdf (env : Env) (pdf_link patent_number output_dir referer : String) :
    Bool × List (String × List Nat) :=
  match (downloadPdfData env pdf_link patent_number referer).1 with
  | .error _ => (false, [])
  | .ok data =>
      let output_file := output_dir ++ "/" ++ patent_number ++ ".pdf"
      match env.write output_file data with
      | .error _ => (false, [])
      | .ok _ => (true, [(output_file, data)])

/-- `download_patent` (downloader.py:60-100): validate, build the page URL,
resolve the PDF link, raise NotFound on a falsy link, then download; the
`except` chain wraps escaping exceptions. The second component lists the
files written. -/
def downloadPatentE (env : Env) (patent_number output_dir : String) :
    Except PDError Bool × List (String × List Nat) :=
  match validatePatentNumber (.vstr patent_number) with
  | .error e => (.error (handleDownloadExc (.pde e)), [])
  | .ok _ =>
      let patent_url := "https://patents.google.com/patent/" ++ patent_number ++ "/en"
      match retrievePdfLink env patent_number patent_url with
      | .error e => (.error (handleDownloadExc (.pde e)), [])
      | .ok pdf_link =>
          if pdf_link == "" then
            (.error (handleDownloadExc (.pde (.patentNotFound
              ("Could not find PDF download link for patent " ++ patent_number)))), [])
          else
            let r := downloadPdf env pdf_link patent_number output_dir patent_url
            (.ok r.1, r.2)

/-- Whether a single-item outcome is the NotFound error. -/
def resultIsNotFound : Except PDError Bool → Bool
  | .error (.patentNotFound _) => true
  | _ => false

/-- One assignment `results[pn] = v` on a Python dict modelled as an
association list: an existing key keeps its position and gets the new
value; a new key is appended. -/
def dictInsert (d : List (String × Bool)) (k : String) (v : Bool) : List (String × Bool) :=
  if d.any (fun p => p.1 == k) then
    d.map (fun p => if p.1 == k then (k, v) else p)
  else d ++ [(k, v)]

/-- `download_patents` (downloader.py:102-123): the sequential batch loop.
`dl` stands for `self.download_patent(pn, output_dir)`, an operation that
either returns a success flag or raises an exception of some type `ε`;
the loop records the flag, or `false` when the call raised. -/
def downloadPatents {ε : Type} (dl : String → Except ε Bool) (patent_numbers : List String) :
    List (String × Bool) :=
  patent_numbers.foldl
    (fun results pn =>
      match dl pn with
      | .ok success => dictInsert results pn success
      | .error _ => dictInsert results pn false)
    []

/-- The flag one isolated single-item call yields: its returned flag, or
`false` when it raised. -/
def itemResult {ε : Type} (dl : String → Except ε Bool) (pn : String) : Bool :=
  match dl pn with
  | .ok success => success
  | .error _ => false

/-- The distinct members of a list in first-occurrence order, those already
in `seen` dropped. -/
def distinctKeys (seen : List String) : List String → List String
  | [] => []
  | x :: xs =>
      if seen.any (fun y => y == x) then distinctKeys seen xs
      else x :: distinctKeys (x :: seen) xs

/-- A tagged element of the parsed patent page: its tag name, its
`itemprop` attribute when present, and its text. -/
structure Element where
  tag : String
  itemprop : Option String
  text : String
deriving DecidableEq

/-- Modelled from the spec: `models.py` is not in the repository snapshot
(downloader.py imports `PatentInfo` from it). Per the spec's data model
(§3) and the constructor call at downloader.py:295-303: identifier, title,
inventors, assignee, publication date, abstract, source URL and an
optional PDF URL defaulting to absent. -/
structure PatentInfo where
  patent_number : String
  title : String
  inventors : List String
  assignee : String
  publication_date : String
  abstract : String
  url : String
  pdf_url : Option String := none
deriving DecidableEq

/-- `_extract_title` (downloader.py:305-316). -/
def extractTitle (soup : List Element) : String :=
  match soup.find? (fun e => e.tag == "span" && e.itemprop == some "title") with
  | some e => pyStrip e.text
  | none =>
      match soup.find? (fun e => e.tag == "h1") with
      | some e => pyStrip e.text
      | none => "Unknown Title"

/-- `_extract_inventors` (downloader.py:318-328). -/
def extractInventors (soup : List Element) : List String :=
  ((soup.filter (fun e => e.tag == "span" && e.itemprop == some "inventor")).map
      (fun e => pyStrip e.text)).filter
    (fun name => !(name == ""))

/-- `_extract_assignee` (downloader.py:330-336). -/
def extractAssignee (soup : List Element) : String :=
  match soup.find? (fun e => e.tag == "span" && e.itemprop == some "assignee") with
  | some e => pyStrip e.text
  | none => "Unknown Assignee"

/-- `_extract_publication_date` (downloader.py:338-344). -/
def extractPublicationDate (soup : List Element) : String :=
  match soup.find? (fun e => e.tag == "time" && e.itemprop == some "publicationDate") with
  | some e => pyStrip e.text
  | none => "Unknown Date"

/-- `_extract_abstract` (downloader.py:346-352). -/
def extractAbstract (soup : List Element) : String :=
  match soup.find? (fun e => e.tag == "div" && e.itemprop == some "abstract") with
  | some e => pyStrip e.text
  | none => "No abstract available"

/-- `_parse_patent_info` (downloader.py:284-303). -/
def parsePatentInfo (soup : List Element) (patent_number patent_url : String) : PatentInfo :=
  { patent_number := patent_number
    title := extractTitle soup
    inventors := extractInventors soup
    assignee := extractAssignee soup
    publication_date := extractPublicationDate soup
    abstract := extractAbstract soup
    url := patent_url }

/-- The record the claim describes: each field extracted independently by a
first-match-or-sentinel rule over the tagged elements. -/
def claimPatentInfo (soup : List Element) (pn url : String) : PatentInfo where
  patent_number := pn
  title :=
    ((soup.find? (fun e => e.tag == "span" && e.itemprop == some "title")).map
        (fun e => pyStrip e.text)).getD
      (((soup.find? (fun e => e.tag == "h1")).map (fun e => pyStrip e.text)).getD
        "Unknown Title")
  inventors :=
    ((soup.filter (fun e => e.tag == "span" && e.itemprop == some "inventor")).map
        (fun e => pyStrip e.text)).filter (fun name => !(name == ""))
  assignee :=
    ((soup.find? (fun e => e.tag == "span" && e.itemprop == some "assignee")).map
        (fun e => pyStrip e.text)).getD "Unknown Assignee"
  publication_date :=
    ((soup.find? (fun e => e.tag == "time" && e.itemprop == some "publicationDate")).map
        (fun e => pyStrip e.text)).getD "Unknown Date"
  abstract :=
    ((soup.find? (fun e => e.tag == "div" && e.itemprop == some "abstract")).map
        (fun e => pyStrip e.text)).getD "No abstract available"
  url := url

/-- Appending on the right cannot make a non-empty string empty. -/
theorem strAppend_ne_empty (a b : String) (h : a ≠ "") : (a ++ b) ≠ "" := by
  intro hc
  have h2 := congrArg String.data hc
  simp at h2
  exact h (String.ext h2.1)

/-- The guessed fallback URL is never the empty string. -/
theorem guessDownloadUrl_ne (pn : String) : (guessDownloadUrl pn == "") = false := by
  rw [beq_eq_false_iff_ne]
  unfold guessDownloadUrl
  apply strAppend_ne_empty
  apply strAppend_ne_empty
  decide

/-- An anchor matching strategy 1 has a non-empty href: its lower-cased href
must contain "pdf". -/
theorem strategy1Pred_href_ne (a : Anchor) (hp : strategy1Pred a = true) :
    (a.href == "") = false := by
  by_cases h : a.href = ""
  · have hf : strContainsSub (pyLower "") "pdf" = false := by decide
    simp [strategy1Pred, h, hf] at hp
  · simp [beq_eq_false_iff_ne, h]

/-- An anchor matching strategy 3 has a non-empty href: its href must contain
"/download" or "download=true". -/
theorem strategy3Pred_href_ne (a : Anchor) (hp : strategy3Pred a = true) :
    (a.href == "") = false := by
  by_cases h : a.href = ""
  · have hf1 : strContainsSub "" "/download" = false := by decide
    have hf2 : strContainsSub "" "download=true" = false := by decide
    simp [strategy3Pred, h, hf1, hf2] at hp
  · simp [beq_eq_false_iff_ne, h]

/-- The cascade value before the second fallback equals the amended claim's
selection. -/
theorem linkBefore_eq_amendedSelect (anchors : List Anchor) (pn : String) :
    linkBeforeFallback2 anchors pn = some (amendedSelect anchors pn) := by
  unfold linkBeforeFallback2 amendedSelect afterStrategy1 afterStrategy2 afterStrategy3 afterStrategy4
  rcases h1 : anchors.find? strategy1Pred with _ | a1
  · rcases h2 : anchors.find? strategy2Pred with _ | a2
    · rcases h3 : anchors.find? strategy3Pred with _ | a3
      · simp [pyTruthyOpt, firstUsable]
      · have hne3 := strategy3Pred_href_ne a3 (List.find?_some h3)
        simp [pyTruthyOpt, firstUsable, hne3]
    · cases hb : a2.href == "" with
      | false =>
          simp [pyTruthyOpt, firstUsable, hb]
      | true =>
          rcases h3 : anchors.find? strategy3Pred with _ | a3
          · simp [pyTruthyOpt, firstUsable, hb]
          · have hne3 := strategy3Pred_href_ne a3 (List.find?_some h3)
            simp [pyTruthyOpt, firstUsable, hb, hne3]
  · have hne1 := strategy1Pred_href_ne a1 (List.find?_some h1)
    simp [pyTruthyOpt, firstUsable, hne1]

/-- The amended selection is never the empty string. -/
theorem amendedSelect_ne (anchors : List Anchor) (pn : String) :
    (amendedSelect anchors pn == "") = false := by
  unfold amendedSelect
  rcases h1 : anchors.find? strategy1Pred with _ | a1
  · rcases h2 : anchors.find? strategy2Pred with _ | a2
    · rcases h3 : anchors.find? strategy3Pred with _ | a3
      · simp [firstUsable, guessDownloadUrl_ne]
      · have hne3 := strategy3Pred_href_ne a3 (List.find?_some h3)
        simp [firstUsable, hne3]
    · cases hb : a2.href == "" with
      | false => simp [firstUsable, hb]
      | true =>
          rcases h3 : anchors.find? strategy3Pred with _ | a3
          · simp [firstUsable, hb, guessDownloadUrl_ne]
          · have hne3 := strategy3Pred_href_ne a3 (List.find?_some h3)
            simp [firstUsable, hb, hne3]
  · have hne1 := strategy1Pred_href_ne a1 (List.find?_some h1)
    simp [firstUsable, hne1]

/-- On a non-empty value the code's normalization computes the claim's. -/
theorem normalizeLink_some (s : String) (h : (s == "") = false) :
    normalizeLink (some s) = some (claimNormalize s) := by
  unfold normalizeLink claimNormalize
  simp [pyTruthyOpt, h]
  split
  · rfl
  · split <;> rfl

/-- Normalization never produces the empty string from a non-empty one. -/
theorem claimNormalize_ne (s : String) (h : (s == "") = false) :
    (claimNormalize s == "") = false := by
  unfold claimNormalize
  split
  · rw [beq_eq_false_iff_ne]
    apply strAppend_ne_empty
    decide
  · split
    · rw [beq_eq_false_iff_ne]
      apply strAppend_ne_empty
      decide
    · exact h

/-- `_find_pdf_link` computes exactly the amended cascade followed by
normalization. -/
theorem findPdfLink_eq (anchors : List Anchor) (pn : String) :
    findPdfLink anchors pn = some (claimNormalize (amendedSelect anchors pn)) := by
  unfold findPdfLink
  rw [linkBefore_eq_amendedSelect]
  have h := amendedSelect_ne anchors pn
  simp [afterFallback2, pyTruthyOpt, h]
  exact normalizeLink_some _ h

/-- The second fallback assignment never changes the cascade value. -/
theorem afterFallback2_dead (anchors : List Anchor) (pn : String) :
    afterFallback2 pn (linkBeforeFallback2 anchors pn) = linkBeforeFallback2 anchors pn := by
  rw [linkBefore_eq_amendedSelect]
  simp [afterFallback2, pyTruthyOpt, amendedSelect_ne]

/-- One loop iteration of the batch records the isolated single-item flag. -/
theorem batchStep_eq {ε : Type} (dl : String → Except ε Bool) (r : List (String × Bool))
    (pn : String) :
    (match dl pn with
      | .ok success => dictInsert r pn success
      | .error _ => dictInsert r pn false)
    = dictInsert r pn (itemResult dl pn) := by
  unfold itemResult
  cases dl pn <;> rfl

/-- A key already present: the assignment updates in place. -/
theorem dictInsert_update (d : List (String × Bool)) (k : String) (v : Bool)
    (h : d.any (fun p => p.1 == k) = true) :
    dictInsert d k v = d.map (fun p => if p.1 == k then (k, v) else p) := by
  unfold dictInsert
  rw [h]
  rfl

/-- A fresh key: the assignment appends. -/
theorem dictInsert_append (d : List (String × Bool)) (k : String) (v : Bool)
    (h : d.any (fun p => p.1 == k) = false) :
    dictInsert d k v = d ++ [(k, v)] := by
  unfold dictInsert
  rw [h]
  rfl

/-- `distinctKeys` only looks at `seen` through membership tests. -/
theorem distinctKeys_congr : ∀ (l s₁ s₂ : List String),
    (∀ a, s₁.any (fun y => y == a) = s₂.any (fun y => y == a)) →
    distinctKeys s₁ l = distinctKeys s₂ l := by
  intro l
  induction l with
  | nil => intro s₁ s₂ _; rfl
  | cons x xs ih =>
      intro s₁ s₂ h
      unfold distinctKeys
      rw [h x]
      cases hx : s₂.any (fun y => y == x) with
      | true => simp [ih s₁ s₂ h]
      | false =>
          have h' : ∀ a, ((x :: s₁).any fun y => y == a) = ((x :: s₂).any fun y => y == a) := by
            intro a
            simp [h a]
          simp [ih (x :: s₁) (x :: s₂) h']

/-- The one-step equation of `distinctKeys`. -/
theorem distinctKeys_cons (seen : List String) (x : String) (xs : List String) :
    distinctKeys seen (x :: xs) =
      if seen.any (fun y => y == x) then distinctKeys seen xs
      else x :: distinctKeys (x :: seen) xs := by
  rfl

/-- Seen keys agree between an accumulator and its key list. -/
theorem keys_any_eq (acc : List (String × Bool)) (x : String) :
    ((acc.map Prod.fst).any fun y => y == x) = (acc.any fun p => p.1 == x) := by
  cases hmem : acc.any fun p => p.1 == x with
  | true =>
      rw [List.any_eq_true] at hmem ⊢
      obtain ⟨p, hp, hpx⟩ := hmem
      exact ⟨p.1, List.mem_map.mpr ⟨p, hp, rfl⟩, hpx⟩
  | false =>
      rw [List.any_eq_false] at hmem ⊢
      intro y hy
      obtain ⟨p, hp, rfl⟩ := List.mem_map.mp hy
      exact hmem p hp

/-- The batch fold appends, to an accumulator whose values already agree
with the isolated single-item flags, one entry per not-yet-seen distinct
identifier, in first-occurrence order. -/
theorem downloadPatents_foldl {ε : Type} (dl : String → Except ε Bool) :
    ∀ (pns : List String) (acc : List (String × Bool)),
    (∀ p ∈ acc, p.2 = itemResult dl p.1) →
    List.foldl
      (fun results pn =>
        match dl pn with
        | .ok success => dictInsert results pn success
        | .error _ => dictInsert results pn false)
      acc pns
    = acc ++ (distinctKeys (acc.map Prod.fst) pns).map (fun k => (k, itemResult dl k)) := by
  intro pns
  induction pns with
  | nil => intro acc _; simp [distinctKeys]
  | cons x xs ih =>
      intro acc hacc
      rw [List.foldl_cons, batchStep_eq]
      cases hmem : acc.any (fun p => p.1 == x) with
      | true =>
          have hmap : acc.map (fun p => if p.1 == x then (x, itemResult dl x) else p) = acc := by
            have hcg : ∀ p ∈ acc, (if p.1 == x then (x, itemResult dl x) else p) = id p := by
              intro p hp
              cases hpx : p.1 == x with
              | false => simp [hpx]
              | true =>
                  have hx : p.1 = x := by simpa using hpx
                  have hv := hacc p hp
                  simp [hpx, ← hx, ← hv]
            rw [List.map_congr_left hcg, List.map_id]
          rw [dictInsert_update acc x (itemResult dl x) hmem, hmap, ih acc hacc]
          have hseen : ((acc.map Prod.fst).any fun y => y == x) = true := by
            rw [keys_any_eq, hmem]
          rw [distinctKeys_cons, hseen]
          simp
      | false =>
          rw [dictInsert_append acc x (itemResult dl x) hmem]
          have hacc' : ∀ p ∈ acc ++ [(x, itemResult dl x)], p.2 = itemResult dl p.1 := by
            intro p hp
            rcases List.mem_append.mp hp with hl | hr
            · exact hacc p hl
            · simp at hr
              rw [hr]
          rw [ih _ hacc']
          have hseen : ((acc.map Prod.fst).any fun y => y == x) = false := by
            rw [keys_any_eq, hmem]
          have hkeys : ((acc ++ [(x, itemResult dl x)]).map Prod.fst) = acc.map Prod.fst ++ [x] := by
            simp
          rw [hkeys]
          have hck : distinctKeys (acc.map Prod.fst ++ [x]) xs
              = distinctKeys (x :: acc.map Prod.fst) xs := by
            apply distinctKeys_congr
            intro a
            simp [Bool.or_comm]
          rw [hck, distinctKeys_cons, hseen]
          simp

/-- The batch result is one entry per distinct identifier, in
first-occurrence order, each carrying the isolated single-item flag. -/
theorem downloadPatents_eq {ε : Type} (dl : String → Except ε Bool) (pns : List String) :
    downloadPatents dl pns = (distinctKeys [] pns).map (fun k => (k, itemResult dl k)) := by
  unfold downloadPatents
  rw [downloadPatents_foldl dl pns [] (by intro p hp; simp at hp)]
  rfl

/-- Membership in `distinctKeys`: exactly the members of the list not yet
seen. -/
theorem mem_distinctKeys : ∀ (l seen : List String) (a : String),
    a ∈ distinctKeys seen l ↔ (a ∈ l ∧ (seen.any fun y => y == a) = false) := by
  intro l
  induction l with
  | nil => intro seen a; simp [distinctKeys]
  | cons x xs ih =>
      intro seen a
      rw [distinctKeys_cons]
      cases hx : seen.any (fun y => y == x) with
      | true =>
          rw [if_pos rfl, ih]
          constructor
          · rintro ⟨ha, hs⟩
            exact ⟨List.mem_cons_of_mem x ha, hs⟩
          · rintro ⟨ha, hs⟩
            rcases List.mem_cons.mp ha with rfl | ha'
            · rw [hx] at hs
              cases hs
            · exact ⟨ha', hs⟩
      | false =>
          rw [if_neg (by simp)]
          constructor
          · intro hm
            rcases List.mem_cons.mp hm with rfl | hm'
            · exact ⟨List.mem_cons_self a xs, hx⟩
            · obtain ⟨ha, hs⟩ := (ih (x :: seen) a).mp hm'
              have hs' : (seen.any fun y => y == a) = false := by
                simp at hs
                rw [List.any_eq_false]
                intro y hy
                simpa using hs.2 y hy
              exact ⟨List.mem_cons_of_mem x ha, hs'⟩
          · rintro ⟨ha, hs⟩
            rcases List.mem_cons.mp ha with rfl | ha'
            · exact List.mem_cons_self a _
            · by_cases hax : a = x
              · subst hax
                exact List.mem_cons_self a _
              · apply List.mem_cons_of_mem
                apply (ih (x :: seen) a).mpr
                refine ⟨ha', ?_⟩
                simp only [List.any_cons, Bool.or_eq_false_iff]
                constructor
                · rw [beq_eq_false_iff_ne]
                  exact fun h => hax h.symm
                · exact hs

/-- `distinctKeys` never repeats a key. -/
theorem nodup_distinctKeys : ∀ (l seen : List String), (distinctKeys seen l).Nodup := by
  intro l
  induction l with
  | nil => intro seen; simp [distinctKeys]
  | cons x xs ih =>
      intro seen
      rw [distinctKeys_cons]
      cases hx : seen.any (fun y => y == x) with
      | true => simpa using ih seen
      | false =>
          rw [if_neg (by simp)]
          apply List.Nodup.cons
          · intro hm
            have := ((mem_distinctKeys xs (x :: seen) x).mp hm).2
            simp at this
          · exact ih (x :: seen)

/-- Looking up a key of a keyed map of a list with distinct members. -/
theorem lookup_map_key : ∀ (l : List String) (f : String → Bool) (a : String), a ∈ l →
    (l.map (fun k => (k, f k))).lookup a = some (f a) := by
  intro l
  induction l with
  | nil => intro f a ha; cases ha
  | cons x xs ih =>
      intro f a ha
      rw [List.map_cons, List.lookup_cons]
      by_cases hax : a = x
      · subst hax
        simp
      · have hne : (a == x) = false := by simpa using hax
        rw [hne]
        rcases List.mem_cons.mp ha with rfl | ha'
        · exact absurd rfl hax
        · exact ih f a ha'

/-- A validation failure is always the InvalidPatentNumber error. -/
theorem validate_error_invalid (v : PyVal) (e : PDError)
    (h : validatePatentNumber v = .error e) : ∃ m, e = .invalidPatentNumber m := by
  unfold validatePatentNumber at h
  split at h
  · injection h with h2
    exact ⟨_, h2.symm⟩
  · split at h
    · split at h
      · injection h with h2
        exact ⟨_, h2.symm⟩
      · cases h
    · cases h

/-- With the page GET failing, `_retrieve_pdf_link` raises what the except
chain makes of the exception. -/
theorem retrievePdfLink_page_error (env : Env) (pn url : String) (fe : FetchErr)
    (hp : env.page = .error fe) :
    retrievePdfLink env pn url = .error (handleDownloadExc (.fetch fe)) := by
  unfold retrievePdfLink
  rw [hp]

/-- With the page GET succeeding, `_retrieve_pdf_link` returns the resolved
link: the normalized amended-cascade selection. -/
theorem retrievePdfLink_page_ok (env : Env) (pn url : String) (anchors : List Anchor)
    (hp : env.page = .ok anchors) :
    retrievePdfLink env pn url = .ok (claimNormalize (amendedSelect anchors pn)) := by
  simp only [retrievePdfLink, hp, findPdfLink_eq,
    claimNormalize_ne _ (amendedSelect_ne anchors pn), Bool.false_eq_true, if_false]

/-- A validation failure makes `download_patent` re-raise it, with no file
written. -/
theorem downloadPatentE_validate_error (env : Env) (pn outDir : String) (e : PDError)
    (hv : validatePatentNumber (.vstr pn) = .error e) :
    downloadPatentE env pn outDir = (.error e, []) := by
  unfold downloadPatentE
  rw [hv]
  rfl

/-- With validation passing and the page GET succeeding, `download_patent`
returns `_download_pdf`'s flag and file writes, raising nothing. -/
theorem downloadPatentE_page_ok (env : Env) (pn outDir : String) (anchors : List Anchor)
    (hv : validatePatentNumber (.vstr pn) = .ok ())
    (hp : env.page = .ok anchors) :
    downloadPatentE env pn outDir
      = (.ok (downloadPdf env (claimNormalize (amendedSelect anchors pn)) pn outDir
            ("https://patents.google.com/patent/" ++ pn ++ "/en")).1,
         (downloadPdf env (claimNormalize (amendedSelect anchors pn)) pn outDir
            ("https://patents.google.com/patent/" ++ pn ++ "/en")).2) := by
  simp only [downloadPatentE, hv,
    retrievePdfLink_page_ok env pn ("https://patents.google.com/patent/" ++ pn ++ "/en") anchors hp,
    claimNormalize_ne _ (amendedSelect_ne anchors pn), Bool.false_eq_true, if_false]

/-- With validation passing and the page GET failing, `download_patent`
raises the except chain's wrapping of the exception, with no file written. -/
theorem downloadPatentE_page_error (env : Env) (pn outDir : String) (fe : FetchErr)
    (hv : validatePatentNumber (.vstr pn) = .ok ())
    (hp : env.page = .error fe) :
    downloadPatentE env pn outDir = (.error (handleDownloadExc (.fetch fe)), []) := by
  simp only [downloadPatentE, hv,
    retrievePdfLink_page_error env pn ("https://patents.google.com/patent/" ++ pn ++ "/en") fe hp]
  cases fe <;> rfl

/-- When the PDF GET fails, `_download_pdf` returns false and writes
nothing. -/
theorem downloadPdf_fetch_error (env : Env) (pdf_link pn outDir referer : String)
    (h : ∀ r, (env.pdf r).isOk = false) :
    downloadPdf env pdf_link pn outDir referer = (false, []) := by
  have hr := h ⟨pdf_link, some referer⟩
  cases he : env.pdf ⟨pdf_link, some referer⟩ with
  | error e => simp only [downloadPdf, downloadPdfData, he]
  | ok r =>
      rw [he] at hr
      simp [Except.isOk, Except.toBool] at hr

/-- When the file write fails, `_download_pdf` returns false and records no
written file. -/
theorem downloadPdf_write_error (env : Env) (pdf_link pn outDir referer : String)
    (h : ∀ f d, (env.write f d).isOk = false) :
    downloadPdf env pdf_link pn outDir referer = (false, []) := by
  cases he : env.pdf ⟨pdf_link, some referer⟩ with
  | error e => simp only [downloadPdf, downloadPdfData, he]
  | ok r =>
      have hw := h (outDir ++ "/" ++ pn ++ ".pdf") r.content
      cases hwe : env.write (outDir ++ "/" ++ pn ++ ".pdf") r.content with
      | error e => simp only [downloadPdf, downloadPdfData, he, hwe]
      | ok u =>
          rw [hwe] at hw
          simp [Except.isOk, Except.toBool] at hw

/-- `download_patent` never raises NotFound: strategy 4 always yields a
truthy link, so both `if not pdf_link` guards are dead. -/
theorem downloadPatentE_not_notFound (env : Env) (pn outDir : String) :
    resultIsNotFound (downloadPatentE env pn outDir).1 = false := by
  cases hv : validatePatentNumber (.vstr pn) with
  | error e =>
      rw [downloadPatentE_validate_error env pn outDir e hv]
      obtain ⟨m, rfl⟩ := validate_error_invalid _ e hv
      rfl
  | ok u =>
      cases u
      cases hp : env.page with
      | error fe =>
          rw [downloadPatentE_page_error env pn outDir fe hv hp]
          cases fe <;> rfl
      | ok anchors =>
          rw [downloadPatentE_page_ok env pn outDir anchors hv hp]
          rfl

/-- The code's title extraction matches the claim's description. -/
theorem extractTitle_eq (soup : List Element) :
    extractTitle soup
      = ((soup.find? (fun e => e.tag == "span" && e.itemprop == some "title")).map
            (fun e => pyStrip e.text)).getD
          (((soup.find? (fun e => e.tag == "h1")).map (fun e => pyStrip e.text)).getD
            "Unknown Title") := by
  unfold extractTitle
  cases h1 : soup.find? (fun e => e.tag == "span" && e.itemprop == some "title") with
  | some e => simp
  | none =>
      cases h2 : soup.find? (fun e => e.tag == "h1") with
      | some e => simp
      | none => simp

/-- The code's assignee extraction matches the claim's description. -/
theorem extractAssignee_eq (soup : List Element) :
    extractAssignee soup
      = ((soup.find? (fun e => e.tag == "span" && e.itemprop == some "assignee")).map
            (fun e => pyStrip e.text)).getD "Unknown Assignee" := by
  unfold extractAssignee
  cases h : soup.find? (fun e => e.tag == "span" && e.itemprop == some "assignee") with
  | some e => simp
  | none => simp

/-- The code's publication-date extraction matches the claim's description. -/
theorem extractPublicationDate_eq (soup : List Element) :
    extractPublicationDate soup
      = ((soup.find? (fun e => e.tag == "time" && e.itemprop == some "publicationDate")).map
            (fun e => pyStrip e.text)).getD "Unknown Date" := by
  unfold extractPublicationDate
  cases h : soup.find? (fun e => e.tag == "time" && e.itemprop == some "publicationDate") with
  | some e => simp
  | none => simp

/-- The code's abstract extraction matches the claim's description. -/
theorem extractAbstract_eq (soup : List Element) :
    extractAbstract soup
      = ((soup.find? (fun e => e.tag == "div" && e.itemprop == some "abstract")).map
            (fun e => pyStrip e.text)).getD "No abstract available" := by
  unfold extractAbstract
  cases h : soup.find? (fun e => e.tag == "div" && e.itemprop == some "abstract") with
  | some e => simp
  | none => simp

/-- `_parse_patent_info` builds exactly the claim's record. -/
theorem parsePatentInfo_eq (soup : List Element) (pn url : String) :
    parsePatentInfo soup pn url = claimPatentInfo soup pn url := by
  unfold parsePatentInfo claimPatentInfo extractInventors
  rw [extractTitle_eq, extractAssignee_eq, extractPublicationDate_eq, extractAbstract_eq]

/-- The code's validation of a string accepts exactly the strings whose
whitespace-stripped length is at least 3. -/
theorem validate_vstr_iff (s : String) :
    validatePatentNumber (.vstr s) = .ok () ↔ 3 ≤ (pyStrip s).length := by
  constructor
  · intro h
    by_contra hge
    push_neg at hge
    by_cases hs : s = ""
    · subst hs
      simp [validatePatentNumber, pyTruthyVal, isStrInstance] at h
    · have hs' : (s == "") = false := by simpa using hs
      simp [validatePatentNumber, pyTruthyVal, isStrInstance, hs', hge] at h
  · intro h3
    have hlt : ¬ (pyStrip s).length < 3 := by omega
    have hs : s ≠ "" := by
      intro hh
      subst hh
      have h0 : (pyStrip "").length = 0 := by decide
      omega
    have hs' : (s == "") = false := by simpa using hs
    simp [validatePatentNumber, pyTruthyVal, isStrInstance, hs', hlt]

/-- C1 counterexample: for the document with the single anchor
`<a href="">Download</a>`, the claim's "first match wins" reading selects
strategy 2's anchor with href "" and normalizes it to the bare site origin,
but the code falls through the empty href (Python truthiness) to the
strategy-4 guessed URL. -/
theorem c1_first_match_counterexample :
    claimFirstMatch [⟨"", "Download"⟩] = some ""
    ∧ claimNormalize "" = "https://patents.google.com/"
    ∧ findPdfLink [⟨"", "Download"⟩] "WO2013078254A1"
        = some "https://patents.google.com/patent/WO2013078254A1/en/download"
    ∧ ¬ findPdfLink [⟨"", "Download"⟩] "WO2013078254A1" = some (claimNormalize "") :=
  ⟨by decide, by decide, by decide, by decide⟩

/-- C1 (amended): `_find_pdf_link` tries the strategies in document order,
but a selected empty href does not stop the cascade: the result is the
first non-empty selection among strategies 1-3, else the guessed URL,
normalized by prefixing the site origin to a leading "/" or origin plus "/"
to a URL not starting with "http"; in particular the anchor
`<a href="/download.pdf">Download PDF</a>` yields an absolute URL ending in
"/download.pdf". -/
theorem c1_link_cascade :
    (∀ (anchors : List Anchor) (pn : String),
        findPdfLink anchors pn = some (claimNormalize (amendedSelect anchors pn)))
    ∧ (∀ pn : String,
        findPdfLink [⟨"/download.pdf", "Download PDF"⟩] pn
          = some "https://patents.google.com/download.pdf")
    ∧ pyEndsWith "https://patents.google.com/download.pdf" "/download.pdf" = true
    ∧ pyStartsWith "https://patents.google.com/download.pdf" "https://" = true := by
  refine ⟨findPdfLink_eq, fun pn => ?_, by decide, by decide⟩
  rw [findPdfLink_eq]
  have h1 : [(⟨"/download.pdf", "Download PDF"⟩ : Anchor)].find? strategy1Pred
      = some ⟨"/download.pdf", "Download PDF"⟩ := by decide
  have h2 : (("/download.pdf" : String) == "") = false := by decide
  simp only [amendedSelect, h1, Option.map_some', firstUsable, h2, Bool.false_eq_true,
    if_false]
  decide

/-- C2: `_find_pdf_link` always returns a non-empty URL (strategy 4 fills in
the guess when nothing matched), so the second fallback assignment never
fires and no NotFound error can arise in `download_patent`. -/
theorem c2_always_url :
    (∀ (anchors : List Anchor) (pn : String),
        ∃ s, findPdfLink anchors pn = some s ∧ (s == "") = false)
    ∧ (∀ (anchors : List Anchor) (pn : String),
        afterFallback2 pn (linkBeforeFallback2 anchors pn) = linkBeforeFallback2 anchors pn)
    ∧ (∀ (env : Env) (pn outDir : String),
        resultIsNotFound (downloadPatentE env pn outDir).1 = false) :=
  ⟨fun anchors pn =>
      ⟨claimNormalize (amendedSelect anchors pn), findPdfLink_eq anchors pn,
        claimNormalize_ne _ (amendedSelect_ne anchors pn)⟩,
    afterFallback2_dead,
    downloadPatentE_not_notFound⟩

/-- C3: the batch catches whatever a single item raises, records false for
it, and still gives every requested identifier an entry carrying its
isolated single-item outcome. -/
theorem c3_batch_isolation {ε : Type} (dl : String → Except ε Bool) (pns : List String)
    (pn : String) (hmem : pn ∈ pns) :
    (downloadPatents dl pns).lookup pn = some (itemResult dl pn)
    ∧ (∀ e, dl pn = .error e → (downloadPatents dl pns).lookup pn = some false) := by
  have hmain : (downloadPatents dl pns).lookup pn = some (itemResult dl pn) := by
    rw [downloadPatents_eq]
    apply lookup_map_key
    rw [mem_distinctKeys]
    exact ⟨hmem, rfl⟩
  refine ⟨hmain, fun e he => ?_⟩
  rw [hmain]
  unfold itemResult
  rw [he]

/-- C3 witness: in the batch ["A", "B", "C"] with "B" raising, "B" is still
recorded, as false. -/
theorem c3_batch_isolation_witness :
    (downloadPatents (fun s => if s == "B" then (.error 0 : Except Nat Bool) else .ok true)
        ["A", "B", "C"]).lookup "B" = some false := by
  have h := c3_batch_isolation
    (fun s => if s == "B" then (.error 0 : Except Nat Bool) else .ok true)
    ["A", "B", "C"] "B" (by decide)
  exact h.2 0 rfl

/-- C4: the batch result holds exactly one entry per distinct input
identifier, keyed in first-occurrence order, each flag being the isolated
single-item outcome (an exception recorded as false). -/
theorem c4_result_map {ε : Type} (dl : String → Except ε Bool) (pns : List String) :
    downloadPatents dl pns = (distinctKeys [] pns).map (fun k => (k, itemResult dl k))
    ∧ ((downloadPatents dl pns).map Prod.fst).Nodup
    ∧ (∀ pn, pn ∈ (downloadPatents dl pns).map Prod.fst ↔ pn ∈ pns) := by
  have h := downloadPatents_eq dl pns
  have hcomp : (Prod.fst ∘ fun k => (k, itemResult dl k)) = id := rfl
  refine ⟨h, ?_, ?_⟩
  · rw [h, List.map_map, hcomp, List.map_id]
    exact nodup_distinctKeys pns []
  · intro pn
    rw [h, List.map_map, hcomp, List.map_id, mem_distinctKeys]
    simp

/-- C5: validation succeeds exactly on strings of stripped length at least
3 (the code strips before measuring); every failure is the
InvalidPatentNumber error. -/
theorem c5_validate (v : PyVal) :
    (validatePatentNumber v = .ok () ↔ ∃ s, v = .vstr s ∧ 3 ≤ (pyStrip s).length)
    ∧ (∀ e, validatePatentNumber v = .error e → ∃ m, e = .invalidPatentNumber m) := by
  refine ⟨?_, fun e he => validate_error_invalid v e he⟩
  constructor
  · intro h
    rcases v with s | _ | n
    · exact ⟨s, rfl, (validate_vstr_iff s).mp h⟩
    · simp [validatePatentNumber, pyTruthyVal, isStrInstance] at h
    · simp [validatePatentNumber, pyTruthyVal, isStrInstance] at h
  · rintro ⟨s, rfl, h3⟩
    exact (validate_vstr_iff s).mpr h3

/-- C6: `_parse_patent_info` builds exactly the claim's record — each of the
five fields extracted independently by its own first-match rule, a missing
field yielding its sentinel only. -/
theorem c6_info_fields (soup : List Element) (pn url : String) :
    parsePatentInfo soup pn url = claimPatentInfo soup pn url
    ∧ (soup.find? (fun e => e.tag == "span" && e.itemprop == some "title") = none →
        soup.find? (fun e => e.tag == "h1") = none →
        (parsePatentInfo soup pn url).title = "Unknown Title")
    ∧ (soup.find? (fun e => e.tag == "span" && e.itemprop == some "assignee") = none →
        (parsePatentInfo soup pn url).assignee = "Unknown Assignee")
    ∧ (soup.find? (fun e => e.tag == "time" && e.itemprop == some "publicationDate") = none →
        (parsePatentInfo soup pn url).publication_date = "Unknown Date")
    ∧ (soup.find? (fun e => e.tag == "div" && e.itemprop == some "abstract") = none →
        (parsePatentInfo soup pn url).abstract = "No abstract available")
    ∧ (parsePatentInfo soup pn url).patent_number = pn
    ∧ (parsePatentInfo soup pn url).url = url
    ∧ (parsePatentInfo soup pn url).pdf_url = none := by
  refine ⟨parsePatentInfo_eq soup pn url, ?_, ?_, ?_, ?_, rfl, rfl, rfl⟩
  · intro h1 h2
    simp [parsePatentInfo, extractTitle, h1, h2]
  · intro h
    simp [parsePatentInfo, extractAssignee, h]
  · intro h
    simp [parsePatentInfo, extractPublicationDate, h]
  · intro h
    simp [parsePatentInfo, extractAbstract, h]

/-- C7: a transport error on the page fetch makes `download_patent` raise
NetworkError wrapping the underlying message, and no file is written. -/
theorem c7_network_error (env : Env) (pn outDir m : String)
    (hv : validatePatentNumber (.vstr pn) = .ok ())
    (hp : env.page = .error (.requestErr m)) :
    downloadPatentE env pn outDir
      = (.error (.networkError ("Network error: " ++ m)), []) := by
  rw [downloadPatentE_page_error env pn outDir (.requestErr m) hv hp]
  rfl

/-- C7 witness: a concrete refused connection surfaces as NetworkError with
no file written. -/
theorem c7_network_error_witness :
    downloadPatentE
        ⟨.error (.requestErr "connection refused"), fun _ => .error (.otherErr "x"),
          fun _ _ => .ok ()⟩
        "WO2013078254A1" "out"
      = (.error (.networkError "Network error: connection refused"), []) :=
  c7_network_error _ "WO2013078254A1" "out" "connection refused" rfl rfl

/-- C9: `_download_pdf_data` issues exactly one GET, with the Referer header
set to the page URL, and on HTTP success returns the raw body bytes
unchanged, a non-PDF-looking response producing only the warning flag,
never a failure. -/
theorem c9_pdf_fetch (env : Env) (pdf_link pn referer : String) :
    (downloadPdfData env pdf_link pn referer).2.1 = [⟨pdf_link, some referer⟩]
    ∧ (∀ r, env.pdf ⟨pdf_link, some referer⟩ = .ok r →
        downloadPdfData env pdf_link pn referer
          = (.ok r.content, [⟨pdf_link, some referer⟩],
              !(strContainsSub (pyLower r.contentType) "pdf")
                && !(pdfMagic.isPrefixOf r.content))) := by
  constructor
  · cases he : env.pdf ⟨pdf_link, some referer⟩ with
    | error e => simp only [downloadPdfData, he]
    | ok r => simp only [downloadPdfData, he]
  · intro r hr
    simp only [downloadPdfData, hr]

/-- C10: once the page is fetched, nothing the PDF fetch or the file write
does can raise out of `download_patent`: `_download_pdf` converts every
failure into a `false` return, with nothing written. -/
theorem c10_pdf_stage (env : Env) (pn outDir : String) (anchors : List Anchor)
    (hv : validatePatentNumber (.vstr pn) = .ok ())
    (hp : env.page = .ok anchors) :
    (∃ b w, downloadPatentE env pn outDir = (.ok b, w))
    ∧ ((∀ r, (env.pdf r).isOk = false) → downloadPatentE env pn outDir = (.ok false, []))
    ∧ ((∀ f d, (env.write f d).isOk = false) →
        downloadPatentE env pn outDir = (.ok false, [])) := by
  have hmain := downloadPatentE_page_ok env pn outDir anchors hv hp
  refine ⟨⟨_, _, hmain⟩, fun h => ?_, fun h => ?_⟩
  · rw [hmain, downloadPdf_fetch_error env _ pn outDir _ h]
  · rw [hmain, downloadPdf_write_error env _ pn outDir _ h]

/-- C10 witness: with the page fetched and every PDF GET failing,
`download_patent` returns false with no file written, raising nothing. -/
theorem c10_pdf_stage_witness :
    downloadPatentE
        ⟨.ok [], fun _ => .error (.requestErr "503"), fun _ _ => .ok ()⟩
        "WO2013078254A1" "out"
      = (.ok false, []) :=
  (c10_pdf_stage ⟨.ok [], fun _ => .error (.requestErr "503"), fun _ _ => .ok ()⟩
    "WO2013078254A1" "out" [] rfl rfl).2.1 (fun _ => rfl)
